import Mathlib

/-!
Shallow embedding of the task-gating bot in src/main.py.

The program keeps a per-user session dict
`STATE : user_id -> {stage, known_signatures, batch_signatures}` and talks to
an external task provider (`flyer.get_tasks`, `flyer.check_task`).  Since each
user's entry is independent, the store is modelled per user as
`Option Session`.  Provider behaviour is an input: a list of fetch responses
consumed call by call, and a check oracle `String -> CheckOutcome`.
-/

set_option maxHeartbeats 1000000

namespace Perevodcheck

/-- Provider task record: a dict with an optional signature (the dedup key)
and display fields.  `t.get "signature"` returning `None` or the empty string
is Python-falsy; both are modelled explicitly. -/
structure Task where
  signature : Option String
  title : Option String
  url : Option String
deriving DecidableEq

/-- Outcome of one `flyer.get_tasks` call: a list on success; an exception or
a non-list response both collapse to the empty list in the source
(`resp if isinstance(resp, list) else []`, `except ... tasks = []`). -/
inductive FetchResp where
  | ok (tasks : List Task)
  | failure
deriving DecidableEq

/-- Tasks obtained from one provider call after the source's normalisation. -/
def respTasks : FetchResp → List Task
  | .ok ts => ts
  | .failure => []

/-- Outcome of one `flyer.check_task` call: a boolean, or an exception
(`err`), which the source logs and treats as not completed. -/
inductive CheckOutcome where
  | ok (completed : Bool)
  | err
deriving DecidableEq

/-- Result of the inner `for t in tasks` loop of `fetch_unique_tasks`:
the accumulated unique tasks, the `seen` set, and whether the
`len(unique) >= limit` early return fired. -/
structure ScanOut where
  unique : List Task
  seen : Finset String
  hitLimit : Bool
deriving DecidableEq

/-- Inner loop of `fetch_unique_tasks` over one provider response:
skip a task whose signature is falsy (`None` or empty) or already in `seen`,
otherwise append it, record the signature, and return as soon as
`len(unique) >= limit`. -/
def scanTasks (limit : Nat) : List Task → List Task → Finset String → ScanOut
  | [], unique, seen => ⟨unique, seen, false⟩
  | t :: ts, unique, seen =>
    match t.signature with
    | none => scanTasks limit ts unique seen
    | some s =>
      if s = "" ∨ s ∈ seen then scanTasks limit ts unique seen
      else
        let uniq : List Task := unique ++ [t]
        if limit ≤ uniq.length then ⟨uniq, insert s seen, true⟩
        else scanTasks limit ts uniq (insert s seen)

/-- Outer retry loop of `fetch_unique_tasks`: one iteration per provider call
(`for lang in attempts: for _ in range(3)`), stopping early when the limit was
hit inside the scan. -/
def fetchLoop (limit : Nat) : List FetchResp → List Task → Finset String → List Task
  | [], unique, _ => unique
  | r :: rs, unique, seen =>
    let out := scanTasks limit (respTasks r) unique seen
    if out.hitLimit then out.unique
    else fetchLoop limit rs out.unique out.seen

/-- Locale fallback order of `fetch_unique_tasks`: user language (when truthy)
then "ru", "en", and no language filter. -/
def attemptsFor (language_code : String) : List (Option String) :=
  (if language_code = "" then [] else [some language_code]) ++
    [some "ru", some "en", none]

/-- Embedding of `fetch_unique_tasks(user_id, language_code, exclude, limit)`.
`seen` starts as a copy of `exclude`; the provider is called at most three
times per locale attempt (each call asks for `limit + 5` tasks, which only
affects what the provider may return, already arbitrary here), so at most
`3 * len(attempts)` responses are consumed. -/
def fetch_unique_tasks (user_id : Nat) (language_code : String)
    (exclude : Finset String) (limit : Nat) (responses : List FetchResp) :
    List Task :=
  fetchLoop limit (responses.take (3 * (attemptsFor language_code).length))
    [] exclude

/-- Per-user session value stored in `STATE`. -/
structure Session where
  stage : Nat
  known_signatures : Finset String
  batch_signatures : Finset String
deriving DecidableEq

/-- User-visible outcomes of the handlers, one per distinct `answer` /
`edit_or_send` site in the source. -/
inductive Msg where
  | noTasksTryLater
  | stage1Prompt
  | sessionNotFound
  | staleButton
  | noActiveTasks
  | notAllDone (ok total : Nat)
  | secondBatchUnavailable
  | stage2Prompt
  | reward
deriving DecidableEq

/-- The set comprehension
`{t.get "signature" for t in tasks if t.get "signature"}`. -/
def sigsOf : List Task → Finset String
  | [] => ∅
  | t :: ts =>
    match t.signature with
    | some s => if s = "" then sigsOf ts else insert s (sigsOf ts)
    | none => sigsOf ts

/-- Result of `start_flow`: the user's `STATE` entry afterwards, the message
sent, and (as an effect trace) the exclusion set passed to the fetch. -/
structure StartResult where
  state : Option Session
  msg : Msg
  fetch_exclude : Finset String
deriving DecidableEq

/-- Embedding of `start_flow` (also the body of `on_start`): unconditionally
overwrite `STATE[user_id]` with a fresh stage-1 session with empty sets, fetch
a batch with empty exclusion set, abort with a try-later message when fewer
than `BATCH_SIZE` arrive, otherwise store the batch signatures as both the
batch and the known set.  `prior` is the user's previous `STATE` entry; the
source never reads it. -/
def start_flow (batchSize : Nat) (user_id : Nat) (lang : String)
    (responses : List FetchResp) (prior : Option Session) : StartResult :=
  let fresh : Session := ⟨1, ∅, ∅⟩
  let tasks := fetch_unique_tasks user_id lang ∅ batchSize responses
  if tasks.length < batchSize then
    ⟨some fresh, Msg.noTasksTryLater, ∅⟩
  else
    let sigs := sigsOf tasks
    ⟨some ⟨1, sigs, sigs⟩, Msg.stage1Prompt, ∅⟩

/-- The `ok` counter loop of `on_verify`: one `check_task` per signature; an
exception counts as not completed and the loop continues. -/
def countCompleted (check : String → CheckOutcome) : List String → Nat
  | [] => 0
  | sig :: rest =>
    match check sig with
    | .ok true => countCompleted check rest + 1
    | _ => countCompleted check rest

/-- The conversion `list(st["batch_signatures"])` at the top of `on_verify`.
Python's set iteration order is unspecified; the model fixes one order (the
sorted one); everything downstream is order-insensitive.  Insertion sort is
used so the function evaluates by kernel reduction. -/
def batchList (s : Finset String) : List String :=
  Quot.liftOn s.val (List.insertionSort (· ≤ ·)) fun _ _ p =>
    List.eq_of_perm_of_sorted
      ((List.perm_insertionSort _ _).trans
        (p.trans (List.perm_insertionSort _ _).symm))
      (List.sorted_insertionSort _ _) (List.sorted_insertionSort _ _)

/-- Result of `on_verify`: the user's `STATE` entry afterwards, the message,
and effect traces: which signatures were sent to `check_task` and whether a
second-batch fetch was performed. -/
structure VerifyResult where
  state : Option Session
  msg : Msg
  checked : List String
  fetched : Bool
deriving DecidableEq

/-- Embedding of the `on_verify` callback handler.  `eventStage` is the stage
parsed from the button payload.  Note the source sets `st["stage"] = 2`
before fetching the second batch, so the unavailable/overlap abort leaves the
session at stage 2. -/
def on_verify (batchSize : Nat) (user_id : Nat) (lang : String)
    (eventStage : Nat) (check : String → CheckOutcome)
    (responses : List FetchResp) : Option Session → VerifyResult
  | none => ⟨none, Msg.sessionNotFound, [], false⟩
  | some st =>
    if st.stage ≠ eventStage then ⟨some st, Msg.staleButton, [], false⟩
    else
      let batch := batchList st.batch_signatures
      if batch = [] then ⟨some st, Msg.noActiveTasks, [], false⟩
      else
        let ok := countCompleted check batch
        if ok < batch.length then
          ⟨some st, Msg.notAllDone ok batch.length, batch, false⟩
        else if eventStage = 1 then
          let st1 : Session := ⟨2, st.known_signatures, st.batch_signatures⟩
          let tasks2 :=
            fetch_unique_tasks user_id lang st.known_signatures batchSize
              responses
          let sigs2 := sigsOf tasks2
          if tasks2.length < batchSize ∨ sigs2 ∩ st.known_signatures ≠ ∅ then
            ⟨some st1, Msg.secondBatchUnavailable, batch, true⟩
          else
            ⟨some ⟨2, st.known_signatures ∪ sigs2, sigs2⟩, Msg.stage2Prompt,
              batch, true⟩
        else
          ⟨none, Msg.reward, batch, false⟩

/-! Basic facts about `batchList` and `countCompleted`. -/

theorem coe_batchList (s : Finset String) :
    (batchList s : Multiset String) = s.val := by
  rcases s with ⟨m, hm⟩
  induction m using Quotient.inductionOn with
  | h l => exact Quot.sound (List.perm_insertionSort _ l)

theorem batchList_length (s : Finset String) :
    (batchList s).length = s.card := by
  have h := congrArg Multiset.card (coe_batchList s)
  simpa [Multiset.coe_card] using h

theorem batchList_eq_nil_iff (s : Finset String) :
    batchList s = [] ↔ s = ∅ := by
  rw [← List.length_eq_zero, batchList_length, Finset.card_eq_zero]

@[simp]
theorem batchList_empty : batchList (∅ : Finset String) = [] :=
  (batchList_eq_nil_iff ∅).mpr rfl

theorem countCompleted_eq_countP (check : String → CheckOutcome)
    (l : List String) :
    countCompleted check l =
      l.countP (fun s => decide (check s = CheckOutcome.ok true)) := by
  induction l with
  | nil => rfl
  | cons sig rest ih =>
    rcases h : check sig with b | _
    · cases b <;> simp [countCompleted, h, List.countP_cons, ih]
    · simp [countCompleted, h, List.countP_cons, ih]

theorem countCompleted_le_length (check : String → CheckOutcome)
    (l : List String) : countCompleted check l ≤ l.length := by
  rw [countCompleted_eq_countP]
  exact List.countP_le_length _

theorem countCompleted_batchList_eq_filter_card
    (check : String → CheckOutcome) (b : Finset String) :
    countCompleted check (batchList b) =
      (b.filter (fun s => check s = CheckOutcome.ok true)).card := by
  rw [countCompleted_eq_countP]
  have h1 : (batchList b : Multiset String).countP
      (fun s => check s = CheckOutcome.ok true) =
      (batchList b).countP
        (fun s => decide (check s = CheckOutcome.ok true)) :=
    Multiset.coe_countP _ _
  rw [← h1, coe_batchList, Multiset.countP_eq_card_filter]
  rfl

/-! Invariants of the fetch loops. -/

/-- The per-task property `fetch_unique_tasks` guarantees relative to an
exclusion set: a present, non-empty signature outside the exclusion set. -/
def GoodTask (exclude : Finset String) (t : Task) : Prop :=
  ∃ s, t.signature = some s ∧ s ≠ "" ∧ s ∉ exclude

theorem scanTasks_spec (limit : Nat) (exclude : Finset String) :
    ∀ (ts unique : List Task) (seen : Finset String),
      exclude ⊆ seen →
      (∀ t ∈ unique, ∃ s, t.signature = some s ∧ s ≠ "" ∧ s ∉ exclude ∧
        s ∈ seen) →
      (unique.map Task.signature).Nodup →
      exclude ⊆ (scanTasks limit ts unique seen).seen ∧
      seen ⊆ (scanTasks limit ts unique seen).seen ∧
      (∀ t ∈ (scanTasks limit ts unique seen).unique,
        ∃ s, t.signature = some s ∧ s ≠ "" ∧ s ∉ exclude ∧
          s ∈ (scanTasks limit ts unique seen).seen) ∧
      ((scanTasks limit ts unique seen).unique.map Task.signature).Nodup := by
  intro ts
  induction ts with
  | nil =>
    intro unique seen hex hmem hnd
    exact ⟨hex, Finset.Subset.refl _, hmem, hnd⟩
  | cons t ts ih =>
    intro unique seen hex hmem hnd
    rcases hsig : t.signature with _ | s
    · simpa [scanTasks, hsig] using ih unique seen hex hmem hnd
    · by_cases hskip : s = "" ∨ s ∈ seen
      · simpa [scanTasks, hsig, hskip] using ih unique seen hex hmem hnd
      · push_neg at hskip
        obtain ⟨hs0, hsnotin⟩ := hskip
        have hsex : s ∉ exclude := fun hx => hsnotin (hex hx)
        have hmem' : ∀ t' ∈ unique ++ [t],
            ∃ s', t'.signature = some s' ∧ s' ≠ "" ∧ s' ∉ exclude ∧
              s' ∈ insert s seen := by
          intro t' ht'
          rcases List.mem_append.mp ht' with h | h
          · obtain ⟨s', h1, h2, h3, h4⟩ := hmem t' h
            exact ⟨s', h1, h2, h3, Finset.mem_insert_of_mem h4⟩
          · rcases List.mem_singleton.mp h with rfl
            exact ⟨s, hsig, hs0, hsex, Finset.mem_insert_self s seen⟩
        have hnotmap : (some s : Option String) ∉ unique.map Task.signature
          := by
          intro hx
          obtain ⟨t', ht', hts⟩ := List.mem_map.mp hx
          obtain ⟨s', h1, -, -, h4⟩ := hmem t' ht'
          rw [h1] at hts
          exact hsnotin (Option.some.inj hts ▸ h4)
        have hnd' : ((unique ++ [t]).map Task.signature).Nodup := by
          rw [List.map_append]
          refine List.Nodup.append hnd (by simp) ?_
          intro x hx hy
          simp only [List.map_cons, List.map_nil, List.mem_singleton] at hy
          subst hy
          exact hnotmap (by simpa [hsig] using hx)
        have hexi : exclude ⊆ insert s seen :=
          hex.trans (Finset.subset_insert s seen)
        have hcond : ¬ (s = "" ∨ s ∈ seen) := by simp [hs0, hsnotin]
        by_cases hlim : limit ≤ (unique ++ [t]).length
        · simp only [scanTasks, hsig, if_neg hcond, if_pos hlim]
          exact ⟨hexi, Finset.subset_insert s seen, hmem', hnd'⟩
        · have hrec := ih (unique ++ [t]) (insert s seen) hexi hmem' hnd'
          simp only [scanTasks, hsig, if_neg hcond, if_neg hlim]
          exact ⟨hrec.1,
            (Finset.subset_insert s seen).trans hrec.2.1,
            hrec.2.2.1, hrec.2.2.2⟩

theorem fetchLoop_spec (limit : Nat) (exclude : Finset String) :
    ∀ (rs : List FetchResp) (unique : List Task) (seen : Finset String),
      exclude ⊆ seen →
      (∀ t ∈ unique, ∃ s, t.signature = some s ∧ s ≠ "" ∧ s ∉ exclude ∧
        s ∈ seen) →
      (unique.map Task.signature).Nodup →
      (∀ t ∈ fetchLoop limit rs unique seen, GoodTask exclude t) ∧
      ((fetchLoop limit rs unique seen).map Task.signature).Nodup := by
  intro rs
  induction rs with
  | nil =>
    intro unique seen _ hmem hnd
    refine ⟨fun t ht => ?_, hnd⟩
    obtain ⟨s, h1, h2, h3, -⟩ := hmem t ht
    exact ⟨s, h1, h2, h3⟩
  | cons r rs ih =>
    intro unique seen hex hmem hnd
    obtain ⟨hex', -, hmem', hnd'⟩ :=
      scanTasks_spec limit exclude (respTasks r) unique seen hex hmem hnd
    by_cases hhit : (scanTasks limit (respTasks r) unique seen).hitLimit
    · refine ?_
      simp only [fetchLoop, hhit, if_true]
      refine ⟨fun t ht => ?_, hnd'⟩
      obtain ⟨s, h1, h2, h3, -⟩ := hmem' t ht
      exact ⟨s, h1, h2, h3⟩
    · simp only [fetchLoop, hhit, if_false, Bool.false_eq_true]
      exact ih _ _ hex' hmem' hnd'

/-- C2: every task returned by `fetch_unique_tasks` carries a non-empty
signature outside the supplied exclusion set, and the returned signatures are
pairwise distinct. -/
theorem fetch_unique_tasks_sigs (user_id : Nat) (lang : String)
    (exclude : Finset String) (limit : Nat) (responses : List FetchResp) :
    (∀ t ∈ fetch_unique_tasks user_id lang exclude limit responses,
      GoodTask exclude t) ∧
    ((fetch_unique_tasks user_id lang exclude limit responses).map
      Task.signature).Nodup :=
  fetchLoop_spec limit exclude _ [] exclude (Finset.Subset.refl _)
    (by simp) (by simp)

/-- Witness for `fetch_unique_tasks_sigs`: with "a" excluded, the returned
task is the "b" one, and its signature avoids the exclusion set. -/
theorem fetch_unique_tasks_sigs_witness :
    GoodTask {"a"} (⟨some "b", none, none⟩ : Task) :=
  (fetch_unique_tasks_sigs 0 "ru" {"a"} 2
    [FetchResp.ok [⟨some "a", none, none⟩, ⟨some "b", none, none⟩]]).1
    ⟨some "b", none, none⟩ (by decide)

theorem scanTasks_length (limit : Nat) :
    ∀ (ts unique : List Task) (seen : Finset String),
      unique.length < limit →
      ((scanTasks limit ts unique seen).hitLimit = true →
        (scanTasks limit ts unique seen).unique.length ≤ limit) ∧
      ((scanTasks limit ts unique seen).hitLimit = false →
        (scanTasks limit ts unique seen).unique.length < limit) := by
  intro ts
  induction ts with
  | nil =>
    intro unique seen hlt
    exact ⟨fun h => by simp [scanTasks] at h, fun _ => by
      simpa [scanTasks] using hlt⟩
  | cons t ts ih =>
    intro unique seen hlt
    rcases hsig : t.signature with _ | s
    · simpa [scanTasks, hsig] using ih unique seen hlt
    · by_cases hskip : s = "" ∨ s ∈ seen
      · simpa [scanTasks, hsig, hskip] using ih unique seen hlt
      · by_cases hlim : limit ≤ (unique ++ [t]).length
        · constructor
          · intro _
            simp only [scanTasks, hsig, if_neg hskip, if_pos hlim]
            simp only [List.length_append, List.length_cons,
              List.length_nil]
            omega
          · intro hfalse
            simp only [scanTasks, hsig, if_neg hskip, if_pos hlim]
              at hfalse
            exact absurd hfalse (by simp)
        · have hlt' : (unique ++ [t]).length < limit :=
            Nat.lt_of_not_le hlim
          have hrec := ih (unique ++ [t]) (insert s seen) hlt'
          simp only [scanTasks, hsig, if_neg hskip, if_neg hlim]
          exact hrec

theorem fetchLoop_length (limit : Nat) :
    ∀ (rs : List FetchResp) (unique : List Task) (seen : Finset String),
      unique.length < limit →
      (fetchLoop limit rs unique seen).length ≤ limit := by
  intro rs
  induction rs with
  | nil =>
    intro unique seen hlt
    exact Nat.le_of_lt hlt
  | cons r rs ih =>
    intro unique seen hlt
    by_cases hhit : (scanTasks limit (respTasks r) unique seen).hitLimit
    · simp only [fetchLoop, hhit, if_true]
      exact (scanTasks_length limit (respTasks r) unique seen hlt).1 hhit
    · simp only [fetchLoop, hhit, if_false, Bool.false_eq_true]
      exact ih _ _
        ((scanTasks_length limit (respTasks r) unique seen hlt).2
          (Bool.not_eq_true _ ▸ by simpa using hhit))

/-- C7 (amended): for every positive limit, `fetch_unique_tasks` returns at
most `limit` tasks.  (With `limit = 0` the bound can be exceeded by one, see
the counterexample.) -/
theorem fetch_unique_tasks_length_le (user_id : Nat) (lang : String)
    (exclude : Finset String) (limit : Nat) (responses : List FetchResp)
    (h : 1 ≤ limit) :
    (fetch_unique_tasks user_id lang exclude limit responses).length ≤
      limit :=
  fetchLoop_length limit _ [] exclude (by simpa using h)

/-- Witness for `fetch_unique_tasks_length_le` on a stream offering three
tasks against a limit of two. -/
theorem fetch_unique_tasks_length_le_witness :
    (fetch_unique_tasks 5 "en" ∅ 2
      [FetchResp.ok [⟨some "a", none, none⟩, ⟨some "b", none, none⟩,
        ⟨some "c", none, none⟩]]).length ≤ 2 :=
  fetch_unique_tasks_length_le 5 "en" ∅ 2
    [FetchResp.ok [⟨some "a", none, none⟩, ⟨some "b", none, none⟩,
      ⟨some "c", none, none⟩]] (by decide)

end Perevodcheck

namespace Perevodcheck

/-- C5: a verify event whose carried stage differs from the session's current
stage leaves the session unchanged, performs no provider check and no fetch,
and only answers with the stale-button notice. -/
theorem verify_stage_mismatch_noop (batchSize user_id : Nat) (lang : String)
    (eventStage : Nat) (check : String → CheckOutcome)
    (responses : List FetchResp) (st : Session)
    (h : st.stage ≠ eventStage) :
    on_verify batchSize user_id lang eventStage check responses (some st) =
      ⟨some st, Msg.staleButton, [], false⟩ := by
  simp [on_verify, h]

/-- Witness for `verify_stage_mismatch_noop` at a concrete stale event. -/
theorem verify_stage_mismatch_noop_witness :
    on_verify 5 1 "ru" 2 (fun _ => CheckOutcome.ok true) []
        (some ⟨1, {"a"}, {"a"}⟩) =
      ⟨some ⟨1, {"a"}, {"a"}⟩, Msg.staleButton, [], false⟩ :=
  verify_stage_mismatch_noop 5 1 "ru" 2 (fun _ => CheckOutcome.ok true) []
    ⟨1, {"a"}, {"a"}⟩ (by decide)

/-- C9: in stage 2, a verify event with full completion answers with the
reward link and deletes the session; any verify event on the now-empty store
reports that the session is not found, leaves the store empty, and performs
no provider check. -/
theorem stage2_full_completion_terminal (batchSize user_id : Nat)
    (lang : String) (check : String → CheckOutcome)
    (responses : List FetchResp) (st : Session)
    (h2 : st.stage = 2) (hne : st.batch_signatures ≠ ∅)
    (hfull : (batchList st.batch_signatures).length ≤
      countCompleted check (batchList st.batch_signatures)) :
    on_verify batchSize user_id lang 2 check responses (some st) =
      ⟨none, Msg.reward, batchList st.batch_signatures, false⟩ ∧
    ∀ (bs uid : Nat) (lg : String) (es : Nat)
      (ck : String → CheckOutcome) (rs : List FetchResp),
      on_verify bs uid lg es ck rs none =
        ⟨none, Msg.sessionNotFound, [], false⟩ := by
  refine ⟨?_, fun _ _ _ _ _ _ => rfl⟩
  have hb : batchList st.batch_signatures ≠ [] := by
    simpa [batchList_eq_nil_iff] using hne
  simp [on_verify, h2, hb, Nat.not_lt.mpr hfull]

/-- Witness for `stage2_full_completion_terminal` at a concrete completed
stage-2 session. -/
theorem stage2_full_completion_terminal_witness :
    on_verify 1 3 "ru" 2 (fun _ => CheckOutcome.ok true) []
        (some ⟨2, {"a", "b"}, {"b"}⟩) =
      ⟨none, Msg.reward, batchList {"b"}, false⟩ ∧
    ∀ (bs uid : Nat) (lg : String) (es : Nat)
      (ck : String → CheckOutcome) (rs : List FetchResp),
      on_verify bs uid lg es ck rs none =
        ⟨none, Msg.sessionNotFound, [], false⟩ :=
  stage2_full_completion_terminal 1 3 "ru" (fun _ => CheckOutcome.ok true) []
    ⟨2, {"a", "b"}, {"b"}⟩ (by decide) (by decide) (by decide)

/-- C1 (code behaviour at the failing input): in stage 1 with every batch
task completed but no second batch available, the handler aborts with the
unavailable message and the session persists, but its stage has already been
set to 2 — it does not remain 1 as the spec requires. -/
theorem stage1_abort_sets_stage_two :
    on_verify 1 9 "ru" 1 (fun _ => CheckOutcome.ok true) []
        (some ⟨1, {"a"}, {"a"}⟩) =
      ⟨some ⟨2, {"a"}, {"a"}⟩, Msg.secondBatchUnavailable, ["a"], true⟩ ∧
    (on_verify 1 9 "ru" 1 (fun _ => CheckOutcome.ok true) []
        (some ⟨1, {"a"}, {"a"}⟩)).state ≠
      some ⟨1, {"a"}, {"a"}⟩ := by
  constructor <;> decide

/-- C7 counterexample: with `limit = 0` and a provider response holding one
valid task, `fetch_unique_tasks` returns one task, exceeding the limit (the
`len(unique) >= limit` check only runs after an append). -/
theorem fetch_limit_zero_exceeds :
    ¬ ((fetch_unique_tasks 0 "ru" ∅ 0
          [FetchResp.ok [⟨some "a", none, none⟩]]).length ≤ 0) := by
  decide

/-- The spec's session invariant: the current batch's signatures are always
among the known signatures (trivially true for an absent session). -/
def SessionInv : Option Session → Prop
  | none => True
  | some st => st.batch_signatures ⊆ st.known_signatures

/-- C4: `batch_signatures ⊆ known_signatures` holds after every operation —
`start_flow` establishes it outright, and `on_verify` preserves it. -/
theorem batch_subset_known_preserved (batchSize user_id : Nat)
    (lang : String) (responses responses2 : List FetchResp)
    (prior st? : Option Session) (eventStage : Nat)
    (check : String → CheckOutcome) (h : SessionInv st?) :
    SessionInv (start_flow batchSize user_id lang responses prior).state ∧
    SessionInv
      (on_verify batchSize user_id lang eventStage check responses2
        st?).state := by
  constructor
  · dsimp only [start_flow]
    split
    · simp [SessionInv]
    · simp [SessionInv]
  · match st? with
    | none => simp [on_verify, SessionInv]
    | some st =>
      simp only [on_verify]
      split
      · exact h
      · split
        · exact h
        · split
          · exact h
          · split
            · split
              · exact h
              · simp [SessionInv]
            · simp [SessionInv]

/-- Witness for `batch_subset_known_preserved` at a concrete store. -/
theorem batch_subset_known_preserved_witness :
    SessionInv (start_flow 1 4 "ru" [] (some ⟨2, {"x"}, {"x"}⟩)).state ∧
    SessionInv
      (on_verify 1 4 "ru" 1 (fun _ => CheckOutcome.ok true) []
        (some ⟨1, {"a"}, {"a"}⟩)).state :=
  batch_subset_known_preserved 1 4 "ru" [] [] (some ⟨2, {"x"}, {"x"}⟩)
    (some ⟨1, {"a"}, {"a"}⟩) 1 (fun _ => CheckOutcome.ok true)
    (by simp [SessionInv])

/-- C6: when the first fetch yields fewer than the configured batch size, the
start flow answers with the try-later message; the stored entry is the fresh
stage-1 session with empty signature sets, and it is unusable — every verify
event on it leaves the store unchanged, performs no provider check, and
fetches nothing. -/
theorem start_short_fetch_unusable (batchSize user_id : Nat) (lang : String)
    (responses : List FetchResp) (prior : Option Session)
    (hshort : (fetch_unique_tasks user_id lang ∅ batchSize
      responses).length < batchSize) :
    (start_flow batchSize user_id lang responses prior).msg =
      Msg.noTasksTryLater ∧
    (start_flow batchSize user_id lang responses prior).state =
      some ⟨1, ∅, ∅⟩ ∧
    ∀ (bs uid : Nat) (lg : String) (es : Nat)
      (ck : String → CheckOutcome) (rs : List FetchResp),
      (on_verify bs uid lg es ck rs
          (start_flow batchSize user_id lang responses prior).state).state =
        (start_flow batchSize user_id lang responses prior).state ∧
      (on_verify bs uid lg es ck rs
          (start_flow batchSize user_id lang responses prior).state).checked
        = [] ∧
      (on_verify bs uid lg es ck rs
          (start_flow batchSize user_id lang responses prior).state).fetched
        = false := by
  have hstate : (start_flow batchSize user_id lang responses prior).state =
      some ⟨1, ∅, ∅⟩ := by
    simp [start_flow, hshort]
  refine ⟨by simp [start_flow, hshort], hstate, ?_⟩
  intro bs uid lg es ck rs
  rw [hstate]
  by_cases hes : (1 : Nat) = es
  · subst hes
    refine ⟨?_, ?_, ?_⟩ <;> simp [on_verify]
  · have : (⟨1, ∅, ∅⟩ : Session).stage ≠ es := hes
    refine ⟨?_, ?_, ?_⟩ <;> simp [on_verify, this]

/-- Witness for `start_short_fetch_unusable`: an empty provider stream yields
zero tasks, short of a batch size of 1. -/
theorem start_short_fetch_unusable_witness :
    (start_flow 1 6 "ru" [] none).msg = Msg.noTasksTryLater ∧
    (start_flow 1 6 "ru" [] none).state = some ⟨1, ∅, ∅⟩ ∧
    ∀ (bs uid : Nat) (lg : String) (es : Nat)
      (ck : String → CheckOutcome) (rs : List FetchResp),
      (on_verify bs uid lg es ck rs (start_flow 1 6 "ru" [] none).state).state
        = (start_flow 1 6 "ru" [] none).state ∧
      (on_verify bs uid lg es ck rs
          (start_flow 1 6 "ru" [] none).state).checked = [] ∧
      (on_verify bs uid lg es ck rs
          (start_flow 1 6 "ru" [] none).state).fetched = false :=
  start_short_fetch_unusable 1 6 "ru" [] none (by decide)

/-- C10: handling a start command ignores and overwrites whatever session the
user had: the result is independent of the prior entry, the fetch exclusion
set is empty, any stored session is at stage 1, and (concretely) a signature
known to an abandoned stage-2 session can be issued again in the new first
batch. -/
theorem start_replaces_and_refetches (batchSize user_id : Nat)
    (lang : String) (responses : List FetchResp)
    (prior prior2 : Option Session) :
    start_flow batchSize user_id lang responses prior =
      start_flow batchSize user_id lang responses prior2 ∧
    (start_flow batchSize user_id lang responses prior).fetch_exclude = ∅ ∧
    (∀ st', (start_flow batchSize user_id lang responses prior).state =
      some st' → st'.stage = 1) ∧
    (start_flow 1 7 "ru" [FetchResp.ok [⟨some "a", none, none⟩]]
        (some ⟨2, {"a"}, {"a"}⟩)).state = some ⟨1, {"a"}, {"a"}⟩ := by
  refine ⟨rfl, ?_, ?_, by decide⟩
  · dsimp only [start_flow]
    split <;> rfl
  · intro st' hst'
    dsimp only [start_flow] at hst'
    split at hst' <;> simp_all <;> rw [← hst']

/-- C8: for a verify event on a non-empty batch at the session's own stage,
the completion count never exceeds the batch size, it equals the number of
batch signatures the provider confirmed (so a failing check counts that
signature as not completed while the rest are still counted), the
partial-completion reply is sent exactly when the count differs from the
batch size, and dropping an erroring signature from the checked list leaves
the count unchanged. -/
theorem verify_count_spec (batchSize user_id : Nat) (lang : String)
    (check : String → CheckOutcome) (responses : List FetchResp)
    (st : Session) (hne : st.batch_signatures ≠ ∅) :
    countCompleted check (batchList st.batch_signatures) ≤
      st.batch_signatures.card ∧
    countCompleted check (batchList st.batch_signatures) =
      (st.batch_signatures.filter
        (fun s => check s = CheckOutcome.ok true)).card ∧
    ((on_verify batchSize user_id lang st.stage check responses
        (some st)).msg =
      Msg.notAllDone (countCompleted check (batchList st.batch_signatures))
        (batchList st.batch_signatures).length ↔
      countCompleted check (batchList st.batch_signatures) ≠
        (batchList st.batch_signatures).length) ∧
    ∀ (sig : String) (rest : List String), check sig = CheckOutcome.err →
      countCompleted check (sig :: rest) = countCompleted check rest := by
  have hle : countCompleted check (batchList st.batch_signatures) ≤
      (batchList st.batch_signatures).length :=
    countCompleted_le_length check _
  have hb : batchList st.batch_signatures ≠ [] := by
    simpa [batchList_eq_nil_iff] using hne
  refine ⟨by simpa [batchList_length] using hle,
    countCompleted_batchList_eq_filter_card check st.batch_signatures,
    ?_, ?_⟩
  · have hmm : ¬ (st.stage ≠ st.stage) := by simp
    by_cases hlt : countCompleted check (batchList st.batch_signatures) <
        (batchList st.batch_signatures).length
    · simp [on_verify, hmm, hb, hlt, Nat.ne_of_lt hlt]
    · have heq : countCompleted check (batchList st.batch_signatures) =
          (batchList st.batch_signatures).length :=
        Nat.le_antisymm hle (Nat.le_of_not_lt hlt)
      by_cases h1 : st.stage = 1
      · by_cases hguard :
            (fetch_unique_tasks user_id lang st.known_signatures batchSize
              responses).length < batchSize ∨
            sigsOf (fetch_unique_tasks user_id lang st.known_signatures
              batchSize responses) ∩ st.known_signatures ≠ ∅
        · simp [on_verify, hmm, hb, hlt, heq, h1, hguard]
        · simp [on_verify, hmm, hb, hlt, heq, h1, hguard]
      · simp [on_verify, hmm, hb, hlt, heq, h1]
  · intro sig rest herr
    simp [countCompleted, herr]

/-- Witness for `verify_count_spec` on a singleton batch whose only check
errors out: the count is zero, so the partial reply 0/1 is sent. -/
theorem verify_count_spec_witness :
    countCompleted (fun _ => CheckOutcome.err)
        (batchList ({"a"} : Finset String)) ≤
      ({"a"} : Finset String).card ∧
    countCompleted (fun _ => CheckOutcome.err)
        (batchList ({"a"} : Finset String)) =
      (({"a"} : Finset String).filter
        (fun s => (fun _ => CheckOutcome.err) s = CheckOutcome.ok true)).card ∧
    ((on_verify 1 8 "ru" (⟨1, {"a"}, {"a"}⟩ : Session).stage
        (fun _ => CheckOutcome.err) [] (some ⟨1, {"a"}, {"a"}⟩)).msg =
      Msg.notAllDone
        (countCompleted (fun _ => CheckOutcome.err)
          (batchList ({"a"} : Finset String)))
        (batchList ({"a"} : Finset String)).length ↔
      countCompleted (fun _ => CheckOutcome.err)
          (batchList ({"a"} : Finset String)) ≠
        (batchList ({"a"} : Finset String)).length) ∧
    ∀ (sig : String) (rest : List String),
      (fun _ => CheckOutcome.err) sig = CheckOutcome.err →
      countCompleted (fun _ => CheckOutcome.err) (sig :: rest) =
        countCompleted (fun _ => CheckOutcome.err) rest :=
  verify_count_spec 1 8 "ru" (fun _ => CheckOutcome.err) []
    ⟨1, {"a"}, {"a"}⟩ (by decide)

/-- C3: when the stage-1 verify handler answers with the stage-2 prompt, the
stored batch is disjoint from the previously accumulated known set (and the
known set grows by exactly that batch); when the freshly fetched second batch
overlaps the known set, the transition does not happen and neither
`batch_signatures` nor `known_signatures` changes. -/
theorem stage_transition_disjointness (batchSize user_id : Nat)
    (lang : String) (check : String → CheckOutcome)
    (responses : List FetchResp) (st : Session) (h1 : st.stage = 1) :
    (∀ st',
      (on_verify batchSize user_id lang 1 check responses (some st)).state =
        some st' →
      (on_verify batchSize user_id lang 1 check responses (some st)).msg =
        Msg.stage2Prompt →
      st'.stage = 2 ∧ st'.batch_signatures ∩ st.known_signatures = ∅ ∧
        st'.known_signatures = st.known_signatures ∪ st'.batch_signatures) ∧
    (sigsOf (fetch_unique_tasks user_id lang st.known_signatures batchSize
        responses) ∩ st.known_signatures ≠ ∅ →
      (on_verify batchSize user_id lang 1 check responses (some st)).msg ≠
        Msg.stage2Prompt ∧
      ∀ st',
        (on_verify batchSize user_id lang 1 check responses (some st)).state
          = some st' →
        st'.batch_signatures = st.batch_signatures ∧
          st'.known_signatures = st.known_signatures) := by
  by_cases hb : batchList st.batch_signatures = []
  · constructor
    · intro st' _ hmsg
      simp [on_verify, h1, hb] at hmsg
    · intro _
      refine ⟨by simp [on_verify, h1, hb], fun st' hstate => ?_⟩
      simp [on_verify, h1, hb] at hstate
      simp [← hstate]
  · by_cases hlt : countCompleted check (batchList st.batch_signatures) <
        (batchList st.batch_signatures).length
    · constructor
      · intro st' _ hmsg
        simp [on_verify, h1, hb, hlt] at hmsg
      · intro _
        refine ⟨by simp [on_verify, h1, hb, hlt], fun st' hstate => ?_⟩
        simp [on_verify, h1, hb, hlt] at hstate
        simp [← hstate]
    · by_cases hguard :
          (fetch_unique_tasks user_id lang st.known_signatures batchSize
            responses).length < batchSize ∨
          sigsOf (fetch_unique_tasks user_id lang st.known_signatures
            batchSize responses) ∩ st.known_signatures ≠ ∅
      · constructor
        · intro st' _ hmsg
          simp [on_verify, h1, hb, hlt, hguard] at hmsg
        · intro _
          refine ⟨by simp [on_verify, h1, hb, hlt, hguard],
            fun st' hstate => ?_⟩
          simp [on_verify, h1, hb, hlt, hguard] at hstate
          simp [← hstate]
      · constructor
        · intro st' hstate _
          simp [on_verify, h1, hb, hlt, hguard] at hstate
          have hdisj : sigsOf (fetch_unique_tasks user_id lang
              st.known_signatures batchSize responses) ∩
              st.known_signatures = ∅ :=
            not_not.mp (fun hx => hguard (Or.inr hx))
          simp [← hstate, hdisj]
        · intro hov
          exact absurd (Or.inr hov) hguard

/-- Witness for `stage_transition_disjointness`: a completed singleton first
batch and one fresh provider task give a successful transition; the new
batch, its disjointness from the old known set, and the grown known set are
read off through the theorem. -/
theorem stage_transition_disjointness_witness :
    (⟨2, {"a"} ∪ {"b"}, {"b"}⟩ : Session).stage = 2 ∧
    (⟨2, {"a"} ∪ {"b"}, {"b"}⟩ : Session).batch_signatures ∩
      ({"a"} : Finset String) = ∅ ∧
    (⟨2, {"a"} ∪ {"b"}, {"b"}⟩ : Session).known_signatures =
      ({"a"} : Finset String) ∪
        (⟨2, {"a"} ∪ {"b"}, {"b"}⟩ : Session).batch_signatures :=
  (stage_transition_disjointness 1 2 "ru" (fun _ => CheckOutcome.ok true)
    [FetchResp.ok [⟨some "b", none, none⟩]] ⟨1, {"a"}, {"a"}⟩ rfl).1
    ⟨2, {"a"} ∪ {"b"}, {"b"}⟩ (by decide) (by decide)

/-- Witness for `start_replaces_and_refetches`: the concrete re-issue run,
with the stage of the stored session extracted through the theorem. -/
theorem start_replaces_and_refetches_witness :
    (start_flow 1 7 "ru" [FetchResp.ok [⟨some "a", none, none⟩]]
        (some ⟨2, {"a"}, {"a"}⟩)).state = some ⟨1, {"a"}, {"a"}⟩ ∧
    (⟨1, {"a"}, {"a"}⟩ : Session).stage = 1 := by
  obtain ⟨-, -, h3, h4⟩ :=
    start_replaces_and_refetches 1 7 "ru"
      [FetchResp.ok [⟨some "a", none, none⟩]] (some ⟨2, {"a"}, {"a"}⟩) none
  exact ⟨h4, h3 _ h4⟩

end Perevodcheck
